import Mathlib

/-!
Verification of the data-reduction pipeline of `caddy-and-schneider-2024`.

The python scripts of this repository operate on numpy 3-D arrays stored in
string-keyed dictionaries.  We embed the arithmetic core shallowly:

* a numpy 3-D array over an element type `α` is a nested list
  (`Arr3 α`), in C order, so `a[i, j, k]` is element `k` of row `j` of
  plane `i`;
* numpy slicing `[1:]` / `[:-1]` along each axis is `List.drop 1` /
  `List.dropLast` at the corresponding nesting depth;
* elementwise arithmetic is nested `List.zipWith` / `List.map`;
* the python dictionary holding the fields of one snapshot is a function
  `String → Option (Arr3 α)`;
* python code that can raise (a missing dictionary key, a missing file,
  an invalid argument) is embedded as `Option`/`Except`-valued functions;
* exact arithmetic uses `ℚ`; the floating-point behaviour of a division
  by zero is modelled separately by the type `FVal` (finite value,
  infinities, NaN) with an IEEE-754 style division.
-/

namespace CaddySchneider

/-- A numpy 3-D array with element type `α`, as a nested list in C order. -/
abbrev Arr3 (α : Type) : Type := List (List (List α))

/-- Elementwise map over a 3-D array (numpy unary ufunc / scalar broadcast). -/
def emap {α β : Type} (f : α → β) (a : Arr3 α) : Arr3 β :=
  a.map (fun pl => pl.map (fun r => r.map f))

/-- Elementwise combination of two 3-D arrays (numpy binary ufunc on
arrays of equal shape). -/
def ezip {α β γ : Type} (f : α → β → γ) (a : Arr3 α) (b : Arr3 β) : Arr3 γ :=
  List.zipWith (List.zipWith (List.zipWith f)) a b

/-- numpy `a + b`. -/
def eadd (a b : Arr3 ℚ) : Arr3 ℚ := ezip (· + ·) a b

/-- numpy `a - b`. -/
def esub (a b : Arr3 ℚ) : Arr3 ℚ := ezip (· - ·) a b

/-- numpy `a * b`. -/
def emul (a b : Arr3 ℚ) : Arr3 ℚ := ezip (· * ·) a b

/-- numpy `a / b` (elementwise), for any element type with a division. -/
def ediv {α : Type} [Div α] (a b : Arr3 α) : Arr3 α := ezip (· / ·) a b

/-- numpy `c * a` with a scalar `c`. -/
def smul (c : ℚ) (a : Arr3 ℚ) : Arr3 ℚ := emap (fun x => c * x) a

/-- numpy `a ** 2`. -/
def esq (a : Arr3 ℚ) : Arr3 ℚ := emap (fun x => x ^ 2) a

/-- numpy `a / c` with a scalar `c`. -/
def sdiv (a : Arr3 ℚ) (c : ℚ) : Arr3 ℚ := emap (fun x => x / c) a

/-- numpy `a[1:, :, :]`. -/
def sliceXTail {α : Type} (a : Arr3 α) : Arr3 α := a.drop 1

/-- numpy `a[:-1, :, :]`. -/
def sliceXInit {α : Type} (a : Arr3 α) : Arr3 α := a.dropLast

/-- numpy `a[:, 1:, :]`. -/
def sliceYTail {α : Type} (a : Arr3 α) : Arr3 α := a.map (fun pl => pl.drop 1)

/-- numpy `a[:, :-1, :]`. -/
def sliceYInit {α : Type} (a : Arr3 α) : Arr3 α := a.map (fun pl => pl.dropLast)

/-- numpy `a[:, :, 1:]`. -/
def sliceZTail {α : Type} (a : Arr3 α) : Arr3 α :=
  a.map (fun pl => pl.map (fun r => r.drop 1))

/-- numpy `a[:, :, :-1]`. -/
def sliceZInit {α : Type} (a : Arr3 α) : Arr3 α :=
  a.map (fun pl => pl.map (fun r => r.dropLast))

/-- Optional element access `a[i, j, k]`. -/
def g3 {α : Type} (a : Arr3 α) (i j k : ℕ) : Option α :=
  (a[i]?.bind (fun pl => pl[j]?)).bind (fun r => r[k]?)

/-- Element access with default `0`, for stating values of in-range cells. -/
def get3 (a : Arr3 ℚ) (i j k : ℕ) : ℚ := (g3 a i j k).getD 0

/-- The shape skeleton of a 3-D array: the list of row lengths of each plane. -/
def shape3 {α : Type} (a : Arr3 α) : List (List ℕ) :=
  a.map (fun pl => pl.map List.length)

/-- `a` is a rectangular `n × m × p` array (the shape numpy reports as
`(n, m, p)`). -/
def Rect {α : Type} (a : Arr3 α) (n m p : ℕ) : Prop :=
  shape3 a = List.replicate n (List.replicate m p)

instance {α : Type} (a : Arr3 α) (n m p : ℕ) : Decidable (Rect a n m p) :=
  inferInstanceAs (Decidable (shape3 a = List.replicate n (List.replicate m p)))

/-- All elements of a 3-D array, in C order (numpy `a.ravel()`). -/
def flat3 {α : Type} (a : Arr3 α) : List α := a.flatten.flatten

/-- numpy `np.sum(a)`. -/
def asum (a : Arr3 ℚ) : ℚ := (flat3 a).sum

/-- numpy `a.size`. -/
def asize {α : Type} (a : Arr3 α) : ℕ := (flat3 a).length

/-- numpy `np.max(a)` (`⊥` exactly when the array is empty, where numpy
raises). -/
def amax (a : Arr3 ℚ) : WithBot ℚ := (flat3 a).maximum

/-- `0.5 * (b[1:, :, :] + b[:-1, :, :])` — `shared_tools.py` line 179. -/
def center_x (b : Arr3 ℚ) : Arr3 ℚ :=
  smul (1 / 2) (eadd (sliceXTail b) (sliceXInit b))

/-- `0.5 * (b[:, 1:, :] + b[:, :-1, :])` — `shared_tools.py` line 181. -/
def center_y (b : Arr3 ℚ) : Arr3 ℚ :=
  smul (1 / 2) (eadd (sliceYTail b) (sliceYInit b))

/-- `0.5 * (b[:, :, 1:] + b[:, :, :-1])` — `shared_tools.py` line 183. -/
def center_z (b : Arr3 ℚ) : Arr3 ℚ :=
  smul (1 / 2) (eadd (sliceZTail b) (sliceZInit b))

/-- A python dictionary mapping field names to numpy arrays. -/
def Dict (α : Type) : Type := String → Option (Arr3 α)

/-- `data[key] = val` on a python dictionary. -/
def dset {α : Type} (data : Dict α) (key : String) (val : Arr3 α) : Dict α :=
  fun k => if k = key then some val else data k

/-- `shared_tools.center_magnetic_fields` (lines 170–187): adds the three
cell-centered magnetic fields to the data dictionary.  A missing key is a
python `KeyError`, embedded as `none`. -/
def center_magnetic_fields (data : Dict ℚ) : Option (Dict ℚ) :=
  match data "magnetic_x" with
  | none => none
  | some bx =>
    match dset data "magnetic_x_centered" (center_x bx) "magnetic_y" with
    | none => none
    | some bY =>
      match dset (dset data "magnetic_x_centered" (center_x bx))
          "magnetic_y_centered" (center_y bY) "magnetic_z" with
      | none => none
      | some bz =>
        some (dset (dset (dset data "magnetic_x_centered" (center_x bx))
          "magnetic_y_centered" (center_y bY)) "magnetic_z_centered" (center_z bz))

/-- `shared_tools.compute_velocities` (lines 232–246): adds
`velocity_i = momentum_i / density` to the data dictionary.  Polymorphic in
the element type so that both exact (`ℚ`) and floating-point (`FVal`)
semantics of the same code can be studied. -/
def compute_velocities {α : Type} [Div α] (data : Dict α) : Option (Dict α) :=
  match data "momentum_x", data "density" with
  | some mx, some rho =>
    match dset data "velocity_x" (ediv mx rho) "momentum_y",
        dset data "velocity_x" (ediv mx rho) "density" with
    | some my, some rho2 =>
      match dset (dset data "velocity_x" (ediv mx rho))
            "velocity_y" (ediv my rho2) "momentum_z",
          dset (dset data "velocity_x" (ediv mx rho))
            "velocity_y" (ediv my rho2) "density" with
      | some mz, some rho3 =>
        some (dset (dset (dset data "velocity_x" (ediv mx rho))
          "velocity_y" (ediv my rho2)) "velocity_z" (ediv mz rho3))
      | _, _ => none
    | _, _ => none
  | _, _ => none

/-- Continuation of `compute_derived_quantities` after the `gas_pressure`
assignment (`shared_tools.py` line 265): the final `total_pressure`
assignment of line 266. -/
def dq_after_gas_pressure (data : Dict ℚ) : Option (Dict ℚ) :=
  match data "gas_pressure", data "magnetic_energy" with
  | some gp, some me2 =>
    some (dset data "total_pressure" (eadd gp me2))
  | _, _ => none

/-- Continuation of `compute_derived_quantities` after the
`magnetic_energy` assignment (`shared_tools.py` line 263). -/
def dq_after_magnetic_energy (data : Dict ℚ) (gamma : ℚ) : Option (Dict ℚ) :=
  match data "energy", data "density", data "spec_kinetic",
      data "magnetic_energy" with
  | some en, some rho, some sk, some me =>
    dq_after_gas_pressure
      (dset data "gas_pressure"
        (smul (gamma - 1) (esub (esub en (emul rho sk)) me)))
  | _, _, _, _ => none

/-- Continuation of `compute_derived_quantities` after the `spec_kinetic`
assignment (`shared_tools.py` line 262): the remaining statements of the
function, acting on the updated dictionary. -/
def dq_after_spec_kinetic (data : Dict ℚ) (gamma : ℚ) : Option (Dict ℚ) :=
  match data "magnetic_x_centered", data "magnetic_y_centered",
      data "magnetic_z_centered" with
  | some bx, some bY, some bz =>
    dq_after_magnetic_energy
      (dset data "magnetic_energy"
        (smul (1 / 2) (eadd (eadd (esq bx) (esq bY)) (esq bz)))) gamma
  | _, _, _ => none

/-- `shared_tools.compute_derived_quantities` (lines 249–268): adds
`spec_kinetic`, `magnetic_energy`, `gas_pressure` and `total_pressure` to
the data dictionary. -/
def compute_derived_quantities (data : Dict ℚ) (gamma : ℚ) : Option (Dict ℚ) :=
  match data "velocity_x", data "velocity_y", data "velocity_z" with
  | some vx, some vy, some vz =>
    dq_after_spec_kinetic
      (dset data "spec_kinetic"
        (smul (1 / 2) (eadd (eadd (esq vx) (esq vy)) (esq vz)))) gamma
  | _, _, _ => none

/-- An IEEE-754 style floating-point value: a finite value (idealised as a
rational), the two infinities, or NaN.  Only the cases exercised by the
scripts matter: finite operands, in particular division by zero. -/
inductive FVal where
  | fin : ℚ → FVal
  | inf : FVal
  | ninf : FVal
  | nan : FVal
deriving DecidableEq

/-- Whether a floating-point value is finite. -/
def FVal.isFinite : FVal → Bool
  | fin _ => true
  | _ => false

/-- IEEE-754 style division for the cases arising in the scripts: both
operands finite.  `x / 0` is `±inf` for `x ≠ 0` and NaN for `x = 0`
(signed zeros are not modelled); non-finite operands give NaN. -/
def FVal.div : FVal → FVal → FVal
  | fin a, fin b =>
    if b = 0 then (if a = 0 then nan else if 0 < a then inf else ninf)
    else fin (a / b)
  | _, _ => nan

instance : Div FVal := ⟨FVal.div⟩

/-- `(data['magnetic_x'][1:, :, :] - data['magnetic_x'][:-1, :, :]) /
data['dx'][0]` — `advecting-field-loop.py` lines 126–127. -/
def div_x (bx : Arr3 ℚ) (dx0 : ℚ) : Arr3 ℚ :=
  sdiv (esub (sliceXTail bx) (sliceXInit bx)) dx0

/-- `advecting-field-loop.py` lines 128–129. -/
def div_y (bY : Arr3 ℚ) (dx1 : ℚ) : Arr3 ℚ :=
  sdiv (esub (sliceYTail bY) (sliceYInit bY)) dx1

/-- `advecting-field-loop.py` lines 130–131. -/
def div_z (bz : Arr3 ℚ) (dx2 : ℚ) : Arr3 ℚ :=
  sdiv (esub (sliceZTail bz) (sliceZInit bz)) dx2

/-- `div_x + div_y + div_z` — `advecting-field-loop.py` line 132. -/
def divergence_sum (bx bY bz : Arr3 ℚ) (dx0 dx1 dx2 : ℚ) : Arr3 ℚ :=
  eadd (eadd (div_x bx dx0) (div_y bY dx1)) (div_z bz dx2)

/-- `np.max(div_x + div_y + div_z)` — the divergence diagnostic of
`advecting-field-loop.py` line 132. -/
def divergence_diag (bx bY bz : Arr3 ℚ) (dx0 dx1 dx2 : ℚ) : WithBot ℚ :=
  amax (divergence_sum bx bY bz dx0 dx1 dx2)

/-- The maximum absolute value of the summed difference arrays: the
diagnostic as the specification describes it (for comparison with the
implemented `divergence_diag`). -/
def divergence_diag_spec (bx bY bz : Arr3 ℚ) (dx0 dx1 dx2 : ℚ) : WithBot ℚ :=
  amax (emap (fun x => |x|) (divergence_sum bx bY bz dx0 dx1 dx2))

/-- `diff = np.abs(initialData - finalData); L1Error = np.sum(diff) /
initialData.size` — `linear-wave-convergence.py` lines 139–140. -/
def l1_error (initialData finalData : Arr3 ℚ) : ℚ :=
  asum (emap (fun x => |x|) (esub initialData finalData)) / (asize initialData : ℚ)

/-- The L2-norm kernel of `linear-wave-convergence.py` lines 134–143 for one
pair of snapshots: accumulate the squared L1 errors over the fields, then
take the square root.  `fields` pairs the datasets of the initial and final
file. -/
noncomputable def computeL2Norm (fields : List (Arr3 ℚ × Arr3 ℚ)) : ℝ :=
  Real.sqrt ((fields.foldl (fun acc fd => acc + l1_error fd.1 fd.2 ^ 2) (0 : ℚ) : ℚ) : ℝ)

/-- The in-memory link table: a python dictionary from string keys to URL
strings. -/
def PyDict : Type := String → Option String

/-- The empty python dictionary `{}`. -/
def pyDictEmpty : PyDict := fun _ => none

/-- `data[key] = val` on the link table. -/
def pySet (d : PyDict) (key val : String) : PyDict :=
  fun k => if k = key then some val else d k

/-- A python exception raised by the link-table scripts. -/
inductive PyErr where
  | fileNotFound : PyErr
  | keyError : PyErr
deriving DecidableEq

/-- `shared_tools.unpickle_dictionary` (lines 287–300): load the pickled
dictionary if the file exists, otherwise return `{}`.  The argument is the
file contents when the file exists. -/
def unpickle_dictionary (file : Option PyDict) : PyDict :=
  match file with
  | some d => d
  | none => pyDictEmpty

/-- `'https://github.com/bcaddy/caddy-et-al-2023/blob'` —
`shared_tools.py` line 31. -/
def github_url_root : String := "https://github.com/bcaddy/caddy-et-al-2023/blob"

/-- `f'{github_url_root}/{commit_hash}/{script_name}'` —
`shared_tools.py` line 314. -/
def mk_link (commit_hash script_name : String) : String :=
  github_url_root ++ "/" ++ commit_hash ++ "/" ++ script_name

/-- `shared_tools.update_plot_entry` (lines 304–319): unpickle the stored
table (empty when the file is absent), bind `key` to the permalink built
from the current commit hash and the script name, and return the table that
is pickled back in full.  `commit_hash` is the output of the external
`git rev-parse HEAD` call. -/
def update_plot_entry (stored : Option PyDict) (key script_name commit_hash : String) :
    PyDict :=
  let data := unpickle_dictionary stored
  let link := mk_link commit_hash script_name
  pySet data key link

/-- `f'\href{{{url}}}{{\img{{../latex-src/github.png}}}}'` —
`get_links.py` line 25. -/
def latex_wrap (url : String) : String :=
  "\\href\x7b" ++ url ++ "\x7d\x7b\\img\x7b../latex-src/github.png\x7d\x7d"

/-- `get_links.main` (lines 15–27): open and unpickle the links file
(raising `FileNotFoundError` when it is absent), look up the key (raising
`KeyError` when it is missing), and return the LaTeX `\href` wrapper around
the stored URL. -/
def get_links_main (file : Option PyDict) (key : String) : Except PyErr String :=
  match file with
  | none => Except.error PyErr.fileNotFound
  | some links =>
    match links key with
    | none => Except.error PyErr.keyError
    | some url => Except.ok (latex_wrap url)

/-- A side effect performed by `cholla_runner`: running the simulator
command, renaming a file, or deleting a file. -/
inductive Effect where
  | runCommand : String → Effect
  | rename : String → String → Effect
  | unlink : String → Effect
deriving DecidableEq

/-- The repository root path (`shared_tools.py` line 22); its actual
filesystem location is irrelevant to the claims and abstracted as a fixed
string. -/
def repo_root : String := "repo_root"

/-- `repo_root / 'data'` — `shared_tools.py` line 28. -/
def data_files_path : String := repo_root ++ "/data"

/-- The `ValueError` message of `shared_tools.py` line 92. -/
def reconstructor_error_msg : String :=
  "reconstructor argument can only be \x27ppmc\x27 or \x27plmc\x27"

/-- `shared_tools.cholla_runner` (lines 70–120): validate the
reconstructor, then run the simulator and move or delete its output files.
The function returns the ordered list of side effects it performs, or the
`ValueError` message; an `Except.error` result performs no side effect,
matching the `raise` on line 92 happening before anything else. -/
def cholla_runner (exe_path reconstructor param_file_name cholla_cli_args : String)
    (move_initial move_final : Bool) (initial_filename final_filename : String) :
    Except String (List Effect) :=
  if ¬ (reconstructor = "ppmc" ∨ reconstructor = "plmc") then
    Except.error reconstructor_error_msg
  else
    let cholla_path := exe_path ++ "/cholla.mhd.c3po." ++ reconstructor
    let param_file_path := repo_root ++ "/python/cholla-config-files/" ++ param_file_name
    let log_file := repo_root ++ "/cholla.log"
    let command := cholla_path ++ " " ++ param_file_path ++ " " ++ cholla_cli_args
      ++ " >> " ++ log_file ++ " 2>&1"
    let data_source_dir := repo_root ++ "/python"
    let initial_data := data_source_dir ++ "/0.h5.0"
    let final_data := data_source_dir ++ "/1.h5.0"
    Except.ok
      ([Effect.runCommand command]
        ++ [if move_initial then
              Effect.rename initial_data (data_files_path ++ "/" ++ initial_filename ++ ".h5")
            else Effect.unlink initial_data]
        ++ [if move_final then
              Effect.rename final_data (data_files_path ++ "/" ++ final_filename ++ ".h5")
            else Effect.unlink final_data]
        ++ [Effect.unlink (data_source_dir ++ "/run_output.log"),
            Effect.unlink (data_source_dir ++ "/run_timing.log")])

/-! ### Concrete inputs used by the witnesses and counterexamples -/

/-- A `1 × 1 × 1` array holding the value `1`. -/
def arr1 : Arr3 ℚ := [[[1]]]

/-- A snapshot dictionary binding every key to `arr1`: a minimal well-formed
input for the pipeline steps. -/
def dAll : Dict ℚ := fun _ => some arr1

/-- A `1 × 1 × 1` floating-point array holding `0.0`. -/
def arrF0 : Arr3 FVal := [[[FVal.fin 0]]]

/-- A floating-point snapshot dictionary binding every key to `arrF0`;
in particular its density is zero everywhere. -/
def dAllF : Dict FVal := fun _ => some arrF0

/-- A `2 × 1 × 1` face-centered `magnetic_x` whose one-sided difference is
negative: values `1` then `0` along the x axis. -/
def bxCE : Arr3 ℚ := [[[1]], [[0]]]

/-- A `1 × 2 × 1` face-centered `magnetic_y`, identically zero. -/
def byCE : Arr3 ℚ := [[[0], [0]]]

/-- A `1 × 1 × 2` face-centered `magnetic_z`, identically zero. -/
def bzCE : Arr3 ℚ := [[[0, 0]]]

/-- A one-field list of identical snapshot pairs for the L2-norm witness. -/
def fieldsC3 : List (Arr3 ℚ × Arr3 ℚ) := [([[[1, 2]]], [[[1, 2]]])]

/-! ### Base lemmas about indexing, shapes and elementwise operations -/

theorem zw_getElem? {α β γ : Type} (f : α → β → γ) (as : List α) (bs : List β) (i : ℕ) :
    (List.zipWith f as bs)[i]? = (as[i]?).bind fun a => (bs[i]?).map (f a) := by
  rw [List.getElem?_zipWith]
  cases as[i]? <;> cases bs[i]? <;> simp

theorem g3_ezip {α β γ : Type} (f : α → β → γ) (a : Arr3 α) (b : Arr3 β) (i j k : ℕ) :
    g3 (ezip f a b) i j k = (g3 a i j k).bind fun x => (g3 b i j k).map (f x) := by
  simp only [g3, ezip, zw_getElem?]
  cases a[i]? with
  | none => simp
  | some pa =>
    cases b[i]? with
    | none => simp
    | some pb =>
      simp only [Option.some_bind, Option.map_some', zw_getElem?]
      cases pa[j]? <;> cases pb[j]? <;> simp [zw_getElem?]

theorem g3_emap {α β : Type} (f : α → β) (a : Arr3 α) (i j k : ℕ) :
    g3 (emap f a) i j k = (g3 a i j k).map f := by
  simp only [g3, emap, List.getElem?_map]
  cases a[i]? with
  | none => simp
  | some pa =>
    simp only [Option.map_some', Option.some_bind, List.getElem?_map]
    cases pa[j]? with
    | none => simp
    | some ra => simp [List.getElem?_map]

theorem g3_sliceXTail {α : Type} (a : Arr3 α) (i j k : ℕ) :
    g3 (sliceXTail a) i j k = g3 a (i + 1) j k := by
  simp only [g3, sliceXTail, List.getElem?_drop, Nat.add_comm 1 i]

theorem g3_sliceXInit {α : Type} (a : Arr3 α) (i j k : ℕ) :
    g3 (sliceXInit a) i j k = if i < a.length - 1 then g3 a i j k else none := by
  simp only [g3, sliceXInit, List.getElem?_dropLast]
  split <;> simp

theorem g3_sliceYTail {α : Type} (a : Arr3 α) (i j k : ℕ) :
    g3 (sliceYTail a) i j k = g3 a i (j + 1) k := by
  simp only [g3, sliceYTail, List.getElem?_map]
  cases a[i]? with
  | none => simp
  | some pa => simp [List.getElem?_drop, Nat.add_comm 1 j]

theorem g3_sliceYInit {α : Type} (a : Arr3 α) (pa : List (List α)) (i j k : ℕ)
    (ha : a[i]? = some pa) :
    g3 (sliceYInit a) i j k = if j < pa.length - 1 then g3 a i j k else none := by
  simp only [g3, sliceYInit, List.getElem?_map, ha]
  simp only [Option.map_some', Option.some_bind, List.getElem?_dropLast]
  split <;> simp

theorem g3_sliceZTail {α : Type} (a : Arr3 α) (i j k : ℕ) :
    g3 (sliceZTail a) i j k = g3 a i j (k + 1) := by
  simp only [g3, sliceZTail, List.getElem?_map]
  cases a[i]? with
  | none => simp
  | some pa =>
    simp only [Option.map_some', Option.some_bind, List.getElem?_map]
    cases pa[j]? with
    | none => simp
    | some ra => simp [List.getElem?_drop, Nat.add_comm 1 k]

theorem g3_sliceZInit {α : Type} (a : Arr3 α) (pa : List (List α)) (ra : List α)
    (i j k : ℕ) (ha : a[i]? = some pa) (hr : pa[j]? = some ra) :
    g3 (sliceZInit a) i j k = if k < ra.length - 1 then g3 a i j k else none := by
  simp only [g3, sliceZInit, List.getElem?_map, ha]
  simp only [Option.map_some', Option.some_bind, List.getElem?_map, hr]
  simp [List.getElem?_dropLast]

theorem shape3_emap {α β : Type} (f : α → β) (a : Arr3 α) :
    shape3 (emap f a) = shape3 a := by
  simp [shape3, emap, List.map_map, Function.comp_def]

theorem rowlen_zipWith {α β γ : Type} (f : α → β → γ) (rs : List (List α))
    (ss : List (List β)) (h : rs.map List.length = ss.map List.length) :
    (List.zipWith (List.zipWith f) rs ss).map List.length = rs.map List.length := by
  induction rs generalizing ss with
  | nil => simp
  | cons r rs ih =>
    cases ss with
    | nil => simp at h
    | cons s ss =>
      simp only [List.map_cons, List.cons.injEq] at h
      simp [List.length_zipWith, h.1, ih ss h.2]

theorem shape3_ezip {α β γ : Type} (f : α → β → γ) (a : Arr3 α) (b : Arr3 β)
    (h : shape3 a = shape3 b) : shape3 (ezip f a b) = shape3 a := by
  induction a generalizing b with
  | nil => simp [ezip, shape3]
  | cons pa a ih =>
    cases b with
    | nil => simp [shape3] at h
    | cons pb b =>
      simp only [shape3, List.map_cons, List.cons.injEq] at h
      simp only [ezip, List.zipWith_cons_cons, shape3, List.map_cons, List.cons.injEq]
      exact ⟨rowlen_zipWith f pa pb h.1, by simpa [ezip, shape3] using ih b (by simpa [shape3] using h.2)⟩

theorem rect_emap {α β : Type} (f : α → β) {a : Arr3 α} {n m p : ℕ}
    (h : Rect a n m p) : Rect (emap f a) n m p := by
  unfold Rect at h ⊢
  rw [shape3_emap]
  exact h

theorem rect_ezip {α β γ : Type} (f : α → β → γ) {a : Arr3 α} {b : Arr3 β}
    {n m p : ℕ} (ha : Rect a n m p) (hb : Rect b n m p) :
    Rect (ezip f a b) n m p := by
  unfold Rect at ha hb ⊢
  rw [shape3_ezip f a b (ha.trans hb.symm)]
  exact ha

theorem shape3_sliceXTail {α : Type} (a : Arr3 α) :
    shape3 (sliceXTail a) = (shape3 a).drop 1 := by
  simp [shape3, sliceXTail]

theorem shape3_sliceXInit {α : Type} (a : Arr3 α) :
    shape3 (sliceXInit a) = (shape3 a).dropLast := by
  simp [shape3, sliceXInit]

theorem shape3_sliceYTail {α : Type} (a : Arr3 α) :
    shape3 (sliceYTail a) = (shape3 a).map (fun s => s.drop 1) := by
  simp [shape3, sliceYTail, List.map_map, Function.comp_def]

theorem shape3_sliceYInit {α : Type} (a : Arr3 α) :
    shape3 (sliceYInit a) = (shape3 a).map (fun s => s.dropLast) := by
  simp [shape3, sliceYInit, List.map_map, Function.comp_def]

theorem shape3_sliceZTail {α : Type} (a : Arr3 α) :
    shape3 (sliceZTail a) = (shape3 a).map (fun s => s.map (fun l => l - 1)) := by
  simp [shape3, sliceZTail, List.map_map, Function.comp_def]

theorem shape3_sliceZInit {α : Type} (a : Arr3 α) :
    shape3 (sliceZInit a) = (shape3 a).map (fun s => s.map (fun l => l - 1)) := by
  simp [shape3, sliceZInit, List.map_map, Function.comp_def]

theorem rect_sliceXTail {α : Type} {a : Arr3 α} {n m p : ℕ}
    (h : Rect a (n + 1) m p) : Rect (sliceXTail a) n m p := by
  unfold Rect at h ⊢
  rw [shape3_sliceXTail, h]
  simp

theorem rect_sliceXInit {α : Type} {a : Arr3 α} {n m p : ℕ}
    (h : Rect a (n + 1) m p) : Rect (sliceXInit a) n m p := by
  unfold Rect at h ⊢
  rw [shape3_sliceXInit, h]
  simp

theorem rect_sliceYTail {α : Type} {a : Arr3 α} {n m p : ℕ}
    (h : Rect a n (m + 1) p) : Rect (sliceYTail a) n m p := by
  unfold Rect at h ⊢
  rw [shape3_sliceYTail, h]
  simp

theorem rect_sliceYInit {α : Type} {a : Arr3 α} {n m p : ℕ}
    (h : Rect a n (m + 1) p) : Rect (sliceYInit a) n m p := by
  unfold Rect at h ⊢
  rw [shape3_sliceYInit, h]
  simp

theorem rect_sliceZTail {α : Type} {a : Arr3 α} {n m p : ℕ}
    (h : Rect a n m (p + 1)) : Rect (sliceZTail a) n m p := by
  unfold Rect at h ⊢
  rw [shape3_sliceZTail, h]
  simp

theorem rect_sliceZInit {α : Type} {a : Arr3 α} {n m p : ℕ}
    (h : Rect a n m (p + 1)) : Rect (sliceZInit a) n m p := by
  unfold Rect at h ⊢
  rw [shape3_sliceZInit, h]
  simp

theorem rect_plane {α : Type} {a : Arr3 α} {n m p : ℕ} (h : Rect a n m p)
    {i : ℕ} (hi : i < n) :
    ∃ pl, a[i]? = some pl ∧ pl.map List.length = List.replicate m p := by
  unfold Rect at h
  have h0 : (shape3 a)[i]? = some (List.replicate m p) := by
    rw [h, List.getElem?_replicate, if_pos hi]
  simp only [shape3, List.getElem?_map] at h0
  cases hA : a[i]? with
  | none => rw [hA] at h0; simp at h0
  | some pl =>
    rw [hA] at h0
    simp only [Option.map_some', Option.some.injEq] at h0
    exact ⟨pl, rfl, h0⟩

theorem rect_row {α : Type} {pl : List (List α)} {m p : ℕ}
    (h : pl.map List.length = List.replicate m p) {j : ℕ} (hj : j < m) :
    ∃ r, pl[j]? = some r ∧ r.length = p := by
  have h0 : (pl.map List.length)[j]? = some p := by
    rw [h, List.getElem?_replicate, if_pos hj]
  simp only [List.getElem?_map] at h0
  cases hr : pl[j]? with
  | none => rw [hr] at h0; simp at h0
  | some r =>
    rw [hr] at h0
    simp only [Option.map_some', Option.some.injEq] at h0
    exact ⟨r, rfl, h0⟩

theorem g3_eq_of_plane_row {α : Type} {a : Arr3 α} {pl : List (List α)}
    {r : List α} {i j : ℕ} (ha : a[i]? = some pl) (hr : pl[j]? = some r)
    (k : ℕ) : g3 a i j k = r[k]? := by
  simp [g3, ha, hr]

theorem rect_g3 {α : Type} {a : Arr3 α} {n m p : ℕ} (h : Rect a n m p)
    {i j k : ℕ} (hi : i < n) (hj : j < m) (hk : k < p) :
    ∃ x, g3 a i j k = some x := by
  obtain ⟨pl, ha, hpl⟩ := rect_plane h hi
  obtain ⟨r, hr, hrl⟩ := rect_row hpl hj
  rw [g3_eq_of_plane_row ha hr]
  exact ⟨r.get ⟨k, hrl ▸ hk⟩, List.getElem?_eq_getElem (hrl ▸ hk)⟩

theorem g3_isSome_of_shape3_eq {α β : Type} {A : Arr3 α} {B : Arr3 β}
    (h : shape3 A = shape3 B) (i j k : ℕ) :
    (g3 A i j k).isSome = (g3 B i j k).isSome := by
  have h0 : (shape3 A)[i]? = (shape3 B)[i]? := by rw [h]
  simp only [shape3, List.getElem?_map] at h0
  cases hA : A[i]? with
  | none =>
    cases hB : B[i]? with
    | none => simp [g3, hA, hB]
    | some pb => rw [hA, hB] at h0; simp at h0
  | some pa =>
    cases hB : B[i]? with
    | none => rw [hA, hB] at h0; simp at h0
    | some pb =>
      rw [hA, hB] at h0
      simp only [Option.map_some', Option.some.injEq] at h0
      have h1 : (pa.map List.length)[j]? = (pb.map List.length)[j]? := by rw [h0]
      simp only [List.getElem?_map] at h1
      cases hra : pa[j]? with
      | none =>
        cases hrb : pb[j]? with
        | none => simp [g3, hA, hB, hra, hrb]
        | some rb => rw [hra, hrb] at h1; simp at h1
      | some ra =>
        cases hrb : pb[j]? with
        | none => rw [hra, hrb] at h1; simp at h1
        | some rb =>
          rw [hra, hrb] at h1
          simp only [Option.map_some', Option.some.injEq] at h1
          simp only [g3, hA, hB, hra, hrb, Option.some_bind]
          by_cases hklt : k < ra.length
          · rw [List.getElem?_eq_getElem hklt, List.getElem?_eq_getElem (h1 ▸ hklt)]
            rfl
          · rw [List.getElem?_eq_none (le_of_not_lt hklt),
              List.getElem?_eq_none (h1 ▸ le_of_not_lt hklt)]
            rfl

theorem ext3 {α : Type} {A B : Arr3 α} (hs : shape3 A = shape3 B)
    (h : ∀ i j k, g3 A i j k = g3 B i j k) : A = B := by
  apply List.ext_getElem?
  intro i
  have h0 : (shape3 A)[i]? = (shape3 B)[i]? := by rw [hs]
  simp only [shape3, List.getElem?_map] at h0
  cases hA : A[i]? with
  | none =>
    cases hB : B[i]? with
    | none => rfl
    | some pb => rw [hA, hB] at h0; simp at h0
  | some pa =>
    cases hB : B[i]? with
    | none => rw [hA, hB] at h0; simp at h0
    | some pb =>
      rw [hA, hB] at h0
      simp only [Option.map_some', Option.some.injEq] at h0
      congr 1
      apply List.ext_getElem?
      intro j
      have h1 : (pa.map List.length)[j]? = (pb.map List.length)[j]? := by rw [h0]
      simp only [List.getElem?_map] at h1
      cases hra : pa[j]? with
      | none =>
        cases hrb : pb[j]? with
        | none => rfl
        | some rb => rw [hra, hrb] at h1; simp at h1
      | some ra =>
        cases hrb : pb[j]? with
        | none => rw [hra, hrb] at h1; simp at h1
        | some rb =>
          congr 1
          apply List.ext_getElem?
          intro k
          have h2 := h i j k
          simpa [g3, hA, hB, hra, hrb] using h2

theorem dset_same {α : Type} (data : Dict α) (key : String) (val : Arr3 α) :
    dset data key val key = some val := by
  simp [dset]

theorem dset_other {α : Type} (data : Dict α) (key : String) (val : Arr3 α)
    {k : String} (h : k ≠ key) : dset data key val k = data k := by
  simp [dset, h]

theorem shape3_smul (c : ℚ) (a : Arr3 ℚ) : shape3 (smul c a) = shape3 a :=
  shape3_emap _ _

theorem shape3_esq (a : Arr3 ℚ) : shape3 (esq a) = shape3 a :=
  shape3_emap _ _

theorem shape3_sdiv (a : Arr3 ℚ) (c : ℚ) : shape3 (sdiv a c) = shape3 a :=
  shape3_emap _ _

theorem shape3_eadd (a b : Arr3 ℚ) (h : shape3 a = shape3 b) :
    shape3 (eadd a b) = shape3 a :=
  shape3_ezip _ a b h

theorem shape3_esub (a b : Arr3 ℚ) (h : shape3 a = shape3 b) :
    shape3 (esub a b) = shape3 a :=
  shape3_ezip _ a b h

theorem shape3_emul (a b : Arr3 ℚ) (h : shape3 a = shape3 b) :
    shape3 (emul a b) = shape3 a :=
  shape3_ezip _ a b h

theorem g3_smul (c : ℚ) (a : Arr3 ℚ) (i j k : ℕ) :
    g3 (smul c a) i j k = (g3 a i j k).map (fun x => c * x) :=
  g3_emap _ a i j k

theorem g3_esq (a : Arr3 ℚ) (i j k : ℕ) :
    g3 (esq a) i j k = (g3 a i j k).map (fun x => x ^ 2) :=
  g3_emap _ a i j k

theorem g3_sdiv (a : Arr3 ℚ) (c : ℚ) (i j k : ℕ) :
    g3 (sdiv a c) i j k = (g3 a i j k).map (fun x => x / c) :=
  g3_emap _ a i j k

theorem g3_eadd (a b : Arr3 ℚ) (i j k : ℕ) :
    g3 (eadd a b) i j k = (g3 a i j k).bind fun x => (g3 b i j k).map (fun y => x + y) :=
  g3_ezip _ a b i j k

theorem g3_esub (a b : Arr3 ℚ) (i j k : ℕ) :
    g3 (esub a b) i j k = (g3 a i j k).bind fun x => (g3 b i j k).map (fun y => x - y) :=
  g3_ezip _ a b i j k

theorem g3_emul (a b : Arr3 ℚ) (i j k : ℕ) :
    g3 (emul a b) i j k = (g3 a i j k).bind fun x => (g3 b i j k).map (fun y => x * y) :=
  g3_ezip _ a b i j k

theorem g3_ediv {α : Type} [Div α] (a b : Arr3 α) (i j k : ℕ) :
    g3 (ediv a b) i j k = (g3 a i j k).bind fun x => (g3 b i j k).map (fun y => x / y) :=
  g3_ezip _ a b i j k

theorem rect_length {α : Type} {a : Arr3 α} {n m p : ℕ} (h : Rect a n m p) :
    a.length = n := by
  have h0 := congrArg List.length h
  simpa [shape3] using h0

theorem rowlen_length {α : Type} {pl : List (List α)} {m p : ℕ}
    (h : pl.map List.length = List.replicate m p) : pl.length = m := by
  have h0 := congrArg List.length h
  simpa using h0

/-! ### Claim C10 -/

/-- C10: `cholla_runner` raises `ValueError` exactly when its reconstructor
argument is neither `ppmc` nor `plmc`; the check precedes every side effect,
so on that error no command is run and no file is moved or deleted (an
`Except.error` result carries an empty effect trace by construction, and an
`Except.ok` trace only ever arises for a valid reconstructor). -/
theorem claim10_reconstructor_validation
    (exe_path reconstructor param_file_name cholla_cli_args : String)
    (move_initial move_final : Bool) (initial_filename final_filename : String) :
    (cholla_runner exe_path reconstructor param_file_name cholla_cli_args
        move_initial move_final initial_filename final_filename
      = Except.error reconstructor_error_msg
      ↔ (reconstructor ≠ "ppmc" ∧ reconstructor ≠ "plmc"))
    ∧ (∀ effs, cholla_runner exe_path reconstructor param_file_name cholla_cli_args
        move_initial move_final initial_filename final_filename = Except.ok effs →
        reconstructor = "ppmc" ∨ reconstructor = "plmc") := by
  by_cases hr : reconstructor = "ppmc" ∨ reconstructor = "plmc"
  · constructor
    · simp only [cholla_runner, if_neg (not_not_intro hr)]
      constructor
      · intro h
        exact absurd h (by simp)
      · intro h
        rcases hr with h1 | h1
        · exact absurd h1 h.1
        · exact absurd h1 h.2
    · intro effs _
      exact hr
  · have hr' : reconstructor ≠ "ppmc" ∧ reconstructor ≠ "plmc" := by
      push_neg at hr
      exact hr
    constructor
    · simp only [cholla_runner, if_pos hr]
      exact iff_of_true trivial hr'
    · intro effs h
      simp only [cholla_runner, if_pos hr] at h
      exact absurd h (by simp)

/-- Witness for C10: a concrete invalid reconstructor makes `cholla_runner`
return the `ValueError` and nothing else. -/
theorem claim10_witness :
    cholla_runner "bin" "weno" "file.txt" "" false false "initial" "final"
      = Except.error reconstructor_error_msg :=
  (claim10_reconstructor_validation "bin" "weno" "file.txt" "" false false
    "initial" "final").1.mpr ⟨by decide, by decide⟩

/-! ### Claim C2 -/

/-- C2 counterexample: looking up a missing key on the empty link table does
not return a not-found value — it raises `KeyError` (`links[args.key]` in
`get_links.py` line 25 is an unguarded dictionary access). -/
theorem claim2_counterexample :
    get_links_main (some pyDictEmpty) "missing_key" = Except.error PyErr.keyError
    ∧ ¬ ∃ s, get_links_main (some pyDictEmpty) "missing_key" = Except.ok s := by
  constructor
  · rfl
  · rintro ⟨s, hs⟩
    simp [get_links_main, pyDictEmpty] at hs

/-- C2 amended: looking up a key that is not present raises `KeyError` (and
an absent links file makes `get_links.main` raise `FileNotFoundError`); only
`unpickle_dictionary`, used on the writing path, maps an absent file to the
empty table instead of raising. -/
theorem claim2_amended :
    (∀ (links : PyDict) (key : String), links key = none →
      get_links_main (some links) key = Except.error PyErr.keyError)
    ∧ (∀ key : String, get_links_main none key = Except.error PyErr.fileNotFound)
    ∧ unpickle_dictionary none = pyDictEmpty := by
  refine ⟨?_, ?_, rfl⟩
  · intro links key h
    simp [get_links_main, h]
  · intro key
    rfl

/-- Witness for C2 at the empty table and a concrete missing key. -/
theorem claim2_witness :
    pyDictEmpty "missing_key" = none
    ∧ get_links_main (some pyDictEmpty) "missing_key" = Except.error PyErr.keyError :=
  ⟨rfl, claim2_amended.1 pyDictEmpty "missing_key" rfl⟩

/-! ### Claim C7 -/

/-- C7 counterexample: the set operation (`update_plot_entry`) does not
store its second argument verbatim; after `set('a', 'u1')` the value bound
to `'a'` is the GitHub permalink built from `'u1'`, so `get('a')` does not
return `'u1'`. -/
theorem claim7_counterexample :
    update_plot_entry none "a" "u1" "c0" "a"
      = some "https://github.com/bcaddy/caddy-et-al-2023/blob/c0/u1"
    ∧ update_plot_entry none "a" "u1" "c0" "a" ≠ some "u1" := by
  constructor
  · decide
  · decide

/-- C7 amended: `update_plot_entry(key, script_name)` binds `key` to the
permalink `github_url_root/commit/script_name`; a subsequent get of the same
key returns exactly that URL; every other key is left as it was in the
unpickled table; and the returned (persisted) table is the whole updated
table. -/
theorem claim7_amended (stored : Option PyDict) (key script_name commit_hash : String) :
    update_plot_entry stored key script_name commit_hash key
      = some (mk_link commit_hash script_name)
    ∧ (∀ k, k ≠ key → update_plot_entry stored key script_name commit_hash k
        = unpickle_dictionary stored k)
    ∧ get_links_main (some (update_plot_entry stored key script_name commit_hash)) key
      = Except.ok (latex_wrap (mk_link commit_hash script_name)) := by
  refine ⟨?_, ?_, ?_⟩
  · simp [update_plot_entry, pySet]
  · intro k hk
    simp [update_plot_entry, pySet, hk]
  · simp [get_links_main, update_plot_entry, pySet]

/-- Witness for C7 at concrete inputs: the set-then-get round trip on key
`'a'` and the untouched other key `'b'`. -/
theorem claim7_witness :
    ("b" : String) ≠ "a"
    ∧ update_plot_entry none "a" "u1" "c0" "a" = some (mk_link "c0" "u1")
    ∧ update_plot_entry none "a" "u1" "c0" "b" = unpickle_dictionary none "b" :=
  ⟨by decide, (claim7_amended none "a" "u1" "c0").1,
    (claim7_amended none "a" "u1" "c0").2.1 "b" (by decide)⟩

/-! ### Claim C9 -/

/-- C9: each pipeline step only adds its new named entries; every key other
than the added ones — in particular every raw field and metadata entry —
is bound to the same array after the call as before it. -/
theorem claim9_pipeline_frame :
    (∀ data : Dict ℚ, (data "magnetic_x").isSome = true →
      (data "magnetic_y").isSome = true → (data "magnetic_z").isSome = true →
      ∃ out, center_magnetic_fields data = some out
        ∧ ∀ k, k ∉ (["magnetic_x_centered", "magnetic_y_centered",
            "magnetic_z_centered"] : List String) → out k = data k)
    ∧ (∀ data : Dict ℚ, (data "momentum_x").isSome = true →
      (data "momentum_y").isSome = true → (data "momentum_z").isSome = true →
      (data "density").isSome = true →
      ∃ out, compute_velocities data = some out
        ∧ ∀ k, k ∉ (["velocity_x", "velocity_y", "velocity_z"] : List String) →
            out k = data k)
    ∧ (∀ (data : Dict ℚ) (gamma : ℚ), (data "velocity_x").isSome = true →
      (data "velocity_y").isSome = true → (data "velocity_z").isSome = true →
      (data "magnetic_x_centered").isSome = true →
      (data "magnetic_y_centered").isSome = true →
      (data "magnetic_z_centered").isSome = true →
      (data "energy").isSome = true → (data "density").isSome = true →
      ∃ out, compute_derived_quantities data gamma = some out
        ∧ ∀ k, k ∉ (["spec_kinetic", "magnetic_energy", "gas_pressure",
            "total_pressure"] : List String) → out k = data k) := by
  refine ⟨?_, ?_, ?_⟩
  · intro data h1 h2 h3
    obtain ⟨bx, hbx⟩ := Option.isSome_iff_exists.mp h1
    obtain ⟨bY, hbY⟩ := Option.isSome_iff_exists.mp h2
    obtain ⟨bz, hbz⟩ := Option.isSome_iff_exists.mp h3
    refine ⟨dset (dset (dset data "magnetic_x_centered" (center_x bx))
      "magnetic_y_centered" (center_y bY)) "magnetic_z_centered" (center_z bz),
      ?_, ?_⟩
    · simp [center_magnetic_fields, dset, hbx, hbY, hbz]
    · intro k hk
      simp only [List.mem_cons, List.not_mem_nil, or_false, not_or] at hk
      obtain ⟨k1, k2, k3⟩ := hk
      rw [dset_other _ _ _ k3, dset_other _ _ _ k2, dset_other _ _ _ k1]
  · intro data h1 h2 h3 h4
    obtain ⟨mx, hmx⟩ := Option.isSome_iff_exists.mp h1
    obtain ⟨my, hmy⟩ := Option.isSome_iff_exists.mp h2
    obtain ⟨mz, hmz⟩ := Option.isSome_iff_exists.mp h3
    obtain ⟨rho, hrho⟩ := Option.isSome_iff_exists.mp h4
    refine ⟨dset (dset (dset data "velocity_x" (ediv mx rho))
      "velocity_y" (ediv my rho)) "velocity_z" (ediv mz rho), ?_, ?_⟩
    · simp [compute_velocities, dset, hmx, hmy, hmz, hrho]
    · intro k hk
      simp only [List.mem_cons, List.not_mem_nil, or_false, not_or] at hk
      obtain ⟨k1, k2, k3⟩ := hk
      rw [dset_other _ _ _ k3, dset_other _ _ _ k2, dset_other _ _ _ k1]
  · intro data gamma h1 h2 h3 h4 h5 h6 h7 h8
    obtain ⟨vx, hvx⟩ := Option.isSome_iff_exists.mp h1
    obtain ⟨vy, hvy⟩ := Option.isSome_iff_exists.mp h2
    obtain ⟨vz, hvz⟩ := Option.isSome_iff_exists.mp h3
    obtain ⟨bx, hbx⟩ := Option.isSome_iff_exists.mp h4
    obtain ⟨bY, hbY⟩ := Option.isSome_iff_exists.mp h5
    obtain ⟨bz, hbz⟩ := Option.isSome_iff_exists.mp h6
    obtain ⟨en, hen⟩ := Option.isSome_iff_exists.mp h7
    obtain ⟨rho, hrho⟩ := Option.isSome_iff_exists.mp h8
    refine ⟨dset (dset (dset (dset data
      "spec_kinetic" (smul (1 / 2) (eadd (eadd (esq vx) (esq vy)) (esq vz)))
      ) "magnetic_energy" (smul (1 / 2) (eadd (eadd (esq bx) (esq bY)) (esq bz)))
      ) "gas_pressure" (smul (gamma - 1) (esub (esub en (emul rho
        (smul (1 / 2) (eadd (eadd (esq vx) (esq vy)) (esq vz)))))
        (smul (1 / 2) (eadd (eadd (esq bx) (esq bY)) (esq bz)))))
      ) "total_pressure" (eadd
        (smul (gamma - 1) (esub (esub en (emul rho
          (smul (1 / 2) (eadd (eadd (esq vx) (esq vy)) (esq vz)))))
          (smul (1 / 2) (eadd (eadd (esq bx) (esq bY)) (esq bz)))))
        (smul (1 / 2) (eadd (eadd (esq bx) (esq bY)) (esq bz)))), ?_, ?_⟩
    · simp [compute_derived_quantities, dq_after_spec_kinetic, dq_after_magnetic_energy,
        dq_after_gas_pressure, dset, hvx, hvy, hvz, hbx, hbY, hbz, hen, hrho]
    · intro k hk
      simp only [List.mem_cons, List.not_mem_nil, or_false, not_or] at hk
      obtain ⟨k1, k2, k3, k4⟩ := hk
      rw [dset_other _ _ _ k4, dset_other _ _ _ k3, dset_other _ _ _ k2,
        dset_other _ _ _ k1]

/-- Witness for C9: the three frame properties applied to a concrete
snapshot dictionary. -/
theorem claim9_witness :
    ((dAll "magnetic_x").isSome = true
      ∧ ∃ out, center_magnetic_fields dAll = some out
          ∧ ∀ k, k ∉ (["magnetic_x_centered", "magnetic_y_centered",
              "magnetic_z_centered"] : List String) → out k = dAll k)
    ∧ (∃ out, compute_velocities dAll = some out
          ∧ ∀ k, k ∉ (["velocity_x", "velocity_y", "velocity_z"] : List String) →
              out k = dAll k)
    ∧ (∃ out, compute_derived_quantities dAll 2 = some out
          ∧ ∀ k, k ∉ (["spec_kinetic", "magnetic_energy", "gas_pressure",
              "total_pressure"] : List String) → out k = dAll k) :=
  ⟨⟨rfl, claim9_pipeline_frame.1 dAll rfl rfl rfl⟩,
    claim9_pipeline_frame.2.1 dAll rfl rfl rfl rfl,
    claim9_pipeline_frame.2.2 dAll 2 rfl rfl rfl rfl rfl rfl rfl rfl⟩

/-! ### Claim C6 -/

/-- C6: whenever `compute_derived_quantities` processes a snapshot, the
`total_pressure` entry of the result is exactly the elementwise sum of the
arrays stored under `gas_pressure` and `magnetic_energy` in that same
result — the very terms just computed, not an independent expression. -/
theorem claim6_total_pressure (data : Dict ℚ) (gamma : ℚ) (out : Dict ℚ)
    (h : compute_derived_quantities data gamma = some out) :
    ∃ gp me, out "gas_pressure" = some gp ∧ out "magnetic_energy" = some me
      ∧ out "total_pressure" = some (eadd gp me) := by
  unfold compute_derived_quantities at h
  split at h
  all_goals try exact Option.noConfusion h
  next vx vy vz hvx hvy hvz =>
    unfold dq_after_spec_kinetic at h
    split at h
    all_goals try exact Option.noConfusion h
    next bx bY bz hbx hbY hbz =>
      unfold dq_after_magnetic_energy at h
      split at h
      all_goals try exact Option.noConfusion h
      next en rho sk me hen hrho hsk hme =>
        unfold dq_after_gas_pressure at h
        split at h
        all_goals try exact Option.noConfusion h
        next gp me2 hgp hme2 =>
          injection h with h'
          subst h'
          refine ⟨gp, me2, ?_, ?_, dset_same _ _ _⟩
          · rw [dset_other _ _ _ (by decide)]
            exact hgp
          · rw [dset_other _ _ _ (by decide)]
            exact hme2

/-- Witness for C6 on a concrete snapshot dictionary. -/
theorem claim6_witness :
    ∃ out gp me, compute_derived_quantities dAll 2 = some out
      ∧ out "gas_pressure" = some gp ∧ out "magnetic_energy" = some me
      ∧ out "total_pressure" = some (eadd gp me) := by
  cases hc : compute_derived_quantities dAll 2 with
  | none => exact absurd hc (by simp [compute_derived_quantities, dq_after_spec_kinetic, dq_after_magnetic_energy, dq_after_gas_pressure, dAll, dset])
  | some out =>
    obtain ⟨gp, me, h1, h2, h3⟩ := claim6_total_pressure dAll 2 out hc
    exact ⟨out, gp, me, rfl, h1, h2, h3⟩

/-! ### Claim C8 -/

/-- C8: on floating-point data, `compute_velocities` always succeeds when
its four input fields are present (no exception is raised regardless of the
density values), it computes `velocity_i = momentum_i / density`
elementwise, and wherever the density is zero and the momentum finite the
resulting value is non-finite (`inf`, `-inf`, or NaN) rather than an
error. -/
theorem claim8_velocity_division (data : Dict FVal) (mx my mz rho : Arr3 FVal)
    (hmx : data "momentum_x" = some mx) (hmy : data "momentum_y" = some my)
    (hmz : data "momentum_z" = some mz) (hrho : data "density" = some rho) :
    ∃ out, compute_velocities data = some out
      ∧ out "velocity_x" = some (ediv mx rho)
      ∧ out "velocity_y" = some (ediv my rho)
      ∧ out "velocity_z" = some (ediv mz rho)
      ∧ (∀ (a b : Arr3 FVal) (i j k : ℕ),
          g3 (ediv a b) i j k
            = (g3 a i j k).bind fun x => (g3 b i j k).map (fun y => x / y))
      ∧ (∀ (a b : Arr3 FVal) (i j k : ℕ) (q : ℚ),
          g3 b i j k = some (FVal.fin 0) → g3 a i j k = some (FVal.fin q) →
          ∃ v, g3 (ediv a b) i j k = some v ∧ v.isFinite = false) := by
  refine ⟨dset (dset (dset data "velocity_x" (ediv mx rho))
    "velocity_y" (ediv my rho)) "velocity_z" (ediv mz rho),
    ?_, ?_, ?_, dset_same _ _ _, ?_, ?_⟩
  · simp [compute_velocities, dset, hmx, hmy, hmz, hrho]
  · rw [dset_other _ _ _ (by decide), dset_other _ _ _ (by decide), dset_same]
  · rw [dset_other _ _ _ (by decide), dset_same]
  · exact g3_ediv
  · intro a b i j k q hb ha
    refine ⟨FVal.fin q / FVal.fin 0, ?_, ?_⟩
    · rw [g3_ediv, ha, hb]
      rfl
    · show (FVal.div (FVal.fin q) (FVal.fin 0)).isFinite = false
      simp only [FVal.div, if_pos rfl]
      split_ifs <;> rfl

/-- Witness for C8 on a concrete dictionary whose density is zero. -/
theorem claim8_witness :
    dAllF "density" = some arrF0
    ∧ ∃ out, compute_velocities dAllF = some out
      ∧ out "velocity_x" = some (ediv arrF0 arrF0)
      ∧ out "velocity_y" = some (ediv arrF0 arrF0)
      ∧ out "velocity_z" = some (ediv arrF0 arrF0)
      ∧ (∀ (a b : Arr3 FVal) (i j k : ℕ),
          g3 (ediv a b) i j k
            = (g3 a i j k).bind fun x => (g3 b i j k).map (fun y => x / y))
      ∧ (∀ (a b : Arr3 FVal) (i j k : ℕ) (q : ℚ),
          g3 b i j k = some (FVal.fin 0) → g3 a i j k = some (FVal.fin q) →
          ∃ v, g3 (ediv a b) i j k = some v ∧ v.isFinite = false) :=
  ⟨rfl, claim8_velocity_division dAllF arrF0 arrF0 arrF0 arrF0 rfl rfl rfl rfl⟩

/-! ### Claim C3 -/

theorem ezip_self {α β : Type} (f : α → α → β) (a : Arr3 α) :
    ezip f a a = emap (fun x => f x x) a := by
  simp [ezip, emap, List.zipWith_same]

theorem emap_emap {α β γ : Type} (f : β → γ) (g : α → β) (a : Arr3 α) :
    emap f (emap g a) = emap (fun x => f (g x)) a := by
  simp [emap, List.map_map, Function.comp_def]

theorem flat3_emap {α β : Type} (f : α → β) (a : Arr3 α) :
    flat3 (emap f a) = (flat3 a).map f := by
  simp only [flat3, emap, List.map_flatten]

theorem l1_error_self (a : Arr3 ℚ) : l1_error a a = 0 := by
  unfold l1_error
  rw [show esub a a = ezip (· - ·) a a from rfl, ezip_self, emap_emap]
  have h : flat3 (emap (fun x => |x - x|) a) = (flat3 a).map (fun x => |x - x|) :=
    flat3_emap _ a
  rw [asum, h]
  have h2 : ((flat3 a).map (fun x : ℚ => |x - x|)).sum = 0 := by
    apply List.sum_eq_zero
    intro x hx
    obtain ⟨y, _, rfl⟩ := List.mem_map.mp hx
    simp
  rw [h2, zero_div]

theorem l2_foldl_zero (fields : List (Arr3 ℚ × Arr3 ℚ))
    (h : ∀ fd ∈ fields, fd.1 = fd.2) :
    fields.foldl (fun acc fd => acc + l1_error fd.1 fd.2 ^ 2) (0 : ℚ) = 0 := by
  induction fields with
  | nil => rfl
  | cons fd fields ih =>
    have h1 : fd.1 = fd.2 := h fd (List.mem_cons_self fd fields)
    have h2 : l1_error fd.1 fd.2 = 0 := by
      rw [← h1]
      exact l1_error_self fd.1
    simp only [List.foldl_cons, h2]
    norm_num
    exact ih (fun x hx => h x (List.mem_cons_of_mem fd hx))

/-- C3: when the initial and final snapshot hold identical arrays for every
field of positive size, the L2 convergence norm of
`linear-wave-convergence.py` is exactly zero (the size hypothesis mirrors
numpy, whose `0.0 / size` would be NaN for a size-0 dataset). -/
theorem claim3_l2_norm_identical (fields : List (Arr3 ℚ × Arr3 ℚ))
    (hid : ∀ fd ∈ fields, fd.1 = fd.2)
    (hsz : ∀ fd ∈ fields, 0 < asize fd.1) :
    computeL2Norm fields = 0 := by
  unfold computeL2Norm
  rw [l2_foldl_zero fields hid]
  simp

/-- Witness for C3 on a concrete one-field pair of identical snapshots. -/
theorem claim3_witness :
    (∀ fd ∈ fieldsC3, fd.1 = fd.2) ∧ (∀ fd ∈ fieldsC3, 0 < asize fd.1)
    ∧ computeL2Norm fieldsC3 = 0 :=
  ⟨by decide, by decide,
    claim3_l2_norm_identical fieldsC3 (by decide) (by decide)⟩

/-! ### Claim C4 -/

/-- C4: for each axis, the centered magnetic field of a rectangular
`(N+1)`-face field is rectangular with the length along its own axis reduced
by exactly one and the other two lengths unchanged, and every centered cell
is the average of the two bounding face values along that axis. -/
theorem claim4_centering :
    (∀ (b : Arr3 ℚ) (n m p : ℕ), Rect b (n + 1) m p →
      Rect (center_x b) n m p
        ∧ ∀ i j k, i < n → j < m → k < p →
          get3 (center_x b) i j k = (get3 b (i + 1) j k + get3 b i j k) / 2)
    ∧ (∀ (b : Arr3 ℚ) (n m p : ℕ), Rect b n (m + 1) p →
      Rect (center_y b) n m p
        ∧ ∀ i j k, i < n → j < m → k < p →
          get3 (center_y b) i j k = (get3 b i (j + 1) k + get3 b i j k) / 2)
    ∧ (∀ (b : Arr3 ℚ) (n m p : ℕ), Rect b n m (p + 1) →
      Rect (center_z b) n m p
        ∧ ∀ i j k, i < n → j < m → k < p →
          get3 (center_z b) i j k = (get3 b i j (k + 1) + get3 b i j k) / 2) := by
  refine ⟨?_, ?_, ?_⟩
  · intro b n m p h
    constructor
    · exact rect_emap _ (rect_ezip _ (rect_sliceXTail h) (rect_sliceXInit h))
    · intro i j k hi hj hk
      obtain ⟨x1, hx1⟩ := rect_g3 h (Nat.succ_lt_succ hi) hj hk
      obtain ⟨x0, hx0⟩ := rect_g3 h (Nat.lt_succ_of_lt hi) hj hk
      have hlen : b.length = n + 1 := rect_length h
      have e1 : g3 (sliceXInit b) i j k = g3 b i j k := by
        rw [g3_sliceXInit, hlen, if_pos (by omega)]
      have e2 : g3 (sliceXTail b) i j k = g3 b (i + 1) j k := g3_sliceXTail b i j k
      simp only [get3, center_x, g3_smul, g3_eadd, e2, e1, hx1, hx0,
        Option.some_bind, Option.map_some', Option.getD_some]
      ring
  · intro b n m p h
    constructor
    · exact rect_emap _ (rect_ezip _ (rect_sliceYTail h) (rect_sliceYInit h))
    · intro i j k hi hj hk
      obtain ⟨x1, hx1⟩ := rect_g3 h hi (Nat.succ_lt_succ hj) hk
      obtain ⟨x0, hx0⟩ := rect_g3 h hi (Nat.lt_succ_of_lt hj) hk
      obtain ⟨pl, hpl, hplsh⟩ := rect_plane h hi
      have hpll : pl.length = m + 1 := rowlen_length hplsh
      have e1 : g3 (sliceYInit b) i j k = g3 b i j k := by
        rw [g3_sliceYInit b pl i j k hpl, hpll, if_pos (by omega)]
      have e2 : g3 (sliceYTail b) i j k = g3 b i (j + 1) k := g3_sliceYTail b i j k
      simp only [get3, center_y, g3_smul, g3_eadd, e2, e1, hx1, hx0,
        Option.some_bind, Option.map_some', Option.getD_some]
      ring
  · intro b n m p h
    constructor
    · exact rect_emap _ (rect_ezip _ (rect_sliceZTail h) (rect_sliceZInit h))
    · intro i j k hi hj hk
      obtain ⟨x1, hx1⟩ := rect_g3 h hi hj (Nat.succ_lt_succ hk)
      obtain ⟨x0, hx0⟩ := rect_g3 h hi hj (Nat.lt_succ_of_lt hk)
      obtain ⟨pl, hpl, hplsh⟩ := rect_plane h hi
      obtain ⟨r, hr, hrl⟩ := rect_row hplsh hj
      have e1 : g3 (sliceZInit b) i j k = g3 b i j k := by
        rw [g3_sliceZInit b pl r i j k hpl hr, hrl, if_pos (by omega)]
      have e2 : g3 (sliceZTail b) i j k = g3 b i j (k + 1) := g3_sliceZTail b i j k
      simp only [get3, center_z, g3_smul, g3_eadd, e2, e1, hx1, hx0,
        Option.some_bind, Option.map_some', Option.getD_some]
      ring

/-- Witness for C4 on concrete rectangular face fields of shapes
`2 × 1 × 1`, `1 × 2 × 1` and `1 × 1 × 2`. -/
theorem claim4_witness :
    (Rect bxCE (0 + 1 + 1) 1 1
      ∧ Rect (center_x bxCE) (0 + 1) 1 1
      ∧ get3 (center_x bxCE) 0 0 0 = (get3 bxCE 1 0 0 + get3 bxCE 0 0 0) / 2)
    ∧ (Rect byCE 1 (0 + 1 + 1) 1
      ∧ Rect (center_y byCE) 1 (0 + 1) 1
      ∧ get3 (center_y byCE) 0 0 0 = (get3 byCE 0 1 0 + get3 byCE 0 0 0) / 2)
    ∧ (Rect bzCE 1 1 (0 + 1 + 1)
      ∧ Rect (center_z bzCE) 1 1 (0 + 1)
      ∧ get3 (center_z bzCE) 0 0 0 = (get3 bzCE 0 0 1 + get3 bzCE 0 0 0) / 2) := by
  have hx := claim4_centering.1 bxCE (0 + 1) 1 1 (by decide)
  have hy := claim4_centering.2.1 byCE 1 (0 + 1) 1 (by decide)
  have hz := claim4_centering.2.2 bzCE 1 1 (0 + 1) (by decide)
  exact ⟨⟨by decide, hx.1, hx.2 0 0 0 (by decide) (by decide) (by decide)⟩,
    ⟨by decide, hy.1, hy.2 0 0 0 (by decide) (by decide) (by decide)⟩,
    ⟨by decide, hz.1, hz.2 0 0 0 (by decide) (by decide) (by decide)⟩⟩

/-! ### Claim C1 -/

/-- C1 counterexample: on a concrete trio of face fields whose summed
one-sided differences are everywhere `-1` (with unit spacings), the
implemented diagnostic — `np.max` of the sum, with no absolute value — is
`-1`, while the maximum absolute value over the grid is `1`; so the reducer
does not return the maximum absolute value. -/
theorem claim1_counterexample :
    divergence_diag bxCE byCE bzCE 1 1 1 = ((-1 : ℚ) : WithBot ℚ)
    ∧ divergence_diag_spec bxCE byCE bzCE 1 1 1 = ((1 : ℚ) : WithBot ℚ)
    ∧ divergence_diag bxCE byCE bzCE 1 1 1
        ≠ divergence_diag_spec bxCE byCE bzCE 1 1 1 := by
  have h1 : divergence_diag bxCE byCE bzCE 1 1 1 = ((-1 : ℚ) : WithBot ℚ) := by
    show amax (divergence_sum bxCE byCE bzCE 1 1 1) = ((-1 : ℚ) : WithBot ℚ)
    norm_num [amax, flat3, divergence_sum, div_x, div_y, div_z, sdiv, esub,
      eadd, ezip, emap, sliceXTail, sliceXInit, sliceYTail, sliceYInit,
      sliceZTail, sliceZInit, bxCE, byCE, bzCE, List.maximum_cons,
      List.maximum_nil]
  have h2 : divergence_diag_spec bxCE byCE bzCE 1 1 1 = ((1 : ℚ) : WithBot ℚ) := by
    show amax (emap (fun x => |x|) (divergence_sum bxCE byCE bzCE 1 1 1))
      = ((1 : ℚ) : WithBot ℚ)
    norm_num [amax, flat3, divergence_sum, div_x, div_y, div_z, sdiv, esub,
      eadd, ezip, emap, sliceXTail, sliceXInit, sliceYTail, sliceYInit,
      sliceZTail, sliceZInit, bxCE, byCE, bzCE, List.maximum_cons,
      List.maximum_nil]
  refine ⟨h1, h2, ?_⟩
  rw [h1, h2]
  intro h
  have := WithBot.coe_injective h
  norm_num at this

/-- C1 amended: the divergence diagnostic of `advecting-field-loop.py` is
the maximum signed value (not the maximum absolute value) of the
componentwise sum of the one-sided finite differences divided by the cell
spacings: whenever the diagnostic equals a rational `M`, `M` is an entry of
the summed array and an upper bound of all its entries; and on rectangular
face fields every in-range entry of that array is the sum over the three
axes of the one-sided difference along the component's own axis divided by
the corresponding spacing. -/
theorem claim1_divergence_amended (bx bY bz : Arr3 ℚ) (d0 d1 d2 : ℚ) :
    (∀ M : ℚ, divergence_diag bx bY bz d0 d1 d2 = (M : WithBot ℚ) →
      M ∈ flat3 (divergence_sum bx bY bz d0 d1 d2)
        ∧ ∀ x ∈ flat3 (divergence_sum bx bY bz d0 d1 d2), x ≤ M)
    ∧ (∀ n m p : ℕ, Rect bx (n + 1) m p → Rect bY n (m + 1) p →
        Rect bz n m (p + 1) →
      ∀ i j k, i < n → j < m → k < p →
        g3 (divergence_sum bx bY bz d0 d1 d2) i j k
          = some ((get3 bx (i + 1) j k - get3 bx i j k) / d0
              + (get3 bY i (j + 1) k - get3 bY i j k) / d1
              + (get3 bz i j (k + 1) - get3 bz i j k) / d2)) := by
  constructor
  · intro M h
    unfold divergence_diag amax at h
    exact List.maximum_eq_coe_iff.mp h
  · intro n m p hbx hbY hbz i j k hi hj hk
    obtain ⟨x1, hx1⟩ := rect_g3 hbx (Nat.succ_lt_succ hi) hj hk
    obtain ⟨x0, hx0⟩ := rect_g3 hbx (Nat.lt_succ_of_lt hi) hj hk
    obtain ⟨y1, hy1⟩ := rect_g3 hbY hi (Nat.succ_lt_succ hj) hk
    obtain ⟨y0, hy0⟩ := rect_g3 hbY hi (Nat.lt_succ_of_lt hj) hk
    obtain ⟨z1, hz1⟩ := rect_g3 hbz hi hj (Nat.succ_lt_succ hk)
    obtain ⟨z0, hz0⟩ := rect_g3 hbz hi hj (Nat.lt_succ_of_lt hk)
    have hlenx : bx.length = n + 1 := rect_length hbx
    have ex1 : g3 (sliceXInit bx) i j k = g3 bx i j k := by
      rw [g3_sliceXInit, hlenx, if_pos (by omega)]
    obtain ⟨plY, hplY, hplYsh⟩ := rect_plane hbY hi
    have hplYl : plY.length = m + 1 := rowlen_length hplYsh
    have ey1 : g3 (sliceYInit bY) i j k = g3 bY i j k := by
      rw [g3_sliceYInit bY plY i j k hplY, hplYl, if_pos (by omega)]
    obtain ⟨plZ, hplZ, hplZsh⟩ := rect_plane hbz hi
    obtain ⟨rZ, hrZ, hrZl⟩ := rect_row hplZsh hj
    have ez1 : g3 (sliceZInit bz) i j k = g3 bz i j k := by
      rw [g3_sliceZInit bz plZ rZ i j k hplZ hrZ, hrZl, if_pos (by omega)]
    simp only [divergence_sum, div_x, div_y, div_z, g3_eadd, g3_sdiv, g3_esub,
      g3_sliceXTail, g3_sliceYTail, g3_sliceZTail, ex1, ey1, ez1,
      hx1, hx0, hy1, hy0, hz1, hz0, Option.some_bind, Option.map_some',
      get3, Option.getD_some]

/-- Witness for C1 at the concrete face fields: the diagnostic `-1` is an
attained upper bound of the summed array, and the single cell of the summed
array carries the finite-difference value. -/
theorem claim1_witness :
    ((-1 : ℚ) ∈ flat3 (divergence_sum bxCE byCE bzCE 1 1 1)
      ∧ ∀ x ∈ flat3 (divergence_sum bxCE byCE bzCE 1 1 1), x ≤ (-1 : ℚ))
    ∧ g3 (divergence_sum bxCE byCE bzCE 1 1 1) 0 0 0
        = some ((get3 bxCE 1 0 0 - get3 bxCE 0 0 0) / 1
            + (get3 byCE 0 1 0 - get3 byCE 0 0 0) / 1
            + (get3 bzCE 0 0 1 - get3 bzCE 0 0 0) / 1) := by
  have hdiag : divergence_diag bxCE byCE bzCE 1 1 1 = ((-1 : ℚ) : WithBot ℚ) := by
    show amax (divergence_sum bxCE byCE bzCE 1 1 1) = ((-1 : ℚ) : WithBot ℚ)
    norm_num [amax, flat3, divergence_sum, div_x, div_y, div_z, sdiv, esub,
      eadd, ezip, emap, sliceXTail, sliceXInit, sliceYTail, sliceYInit,
      sliceZTail, sliceZInit, bxCE, byCE, bzCE, List.maximum_cons,
      List.maximum_nil]
  exact ⟨(claim1_divergence_amended bxCE byCE bzCE 1 1 1).1 (-1) hdiag,
    (claim1_divergence_amended bxCE byCE bzCE 1 1 1).2 1 1 1 (by decide)
      (by decide) (by decide) 0 0 0 (by decide) (by decide) (by decide)⟩

/-! ### Claim C5 -/

/-- C5: with adiabatic index γ > 1, the gas-pressure derivation of
`compute_derived_quantities` is invertible over exact arithmetic: the
energy recomputed as `gas_pressure / (γ - 1) + density * spec_kinetic +
magnetic_energy` from the quantities the computation produced equals the
original energy array exactly (the shape hypotheses say the snapshot's
arrays all share the energy array's shape, as numpy requires). -/
theorem claim5_gas_pressure_invertible (data : Dict ℚ) (gamma : ℚ)
    (en rho vx vy vz bxc byc bzc : Arr3 ℚ)
    (hen : data "energy" = some en) (hrho : data "density" = some rho)
    (hvx : data "velocity_x" = some vx) (hvy : data "velocity_y" = some vy)
    (hvz : data "velocity_z" = some vz)
    (hbx : data "magnetic_x_centered" = some bxc)
    (hby : data "magnetic_y_centered" = some byc)
    (hbz : data "magnetic_z_centered" = some bzc)
    (hgamma : 1 < gamma)
    (srho : shape3 rho = shape3 en) (svx : shape3 vx = shape3 en)
    (svy : shape3 vy = shape3 en) (svz : shape3 vz = shape3 en)
    (sbx : shape3 bxc = shape3 en) (sby : shape3 byc = shape3 en)
    (sbz : shape3 bzc = shape3 en) :
    ∃ out sk me gp, compute_derived_quantities data gamma = some out
      ∧ out "spec_kinetic" = some sk
      ∧ out "magnetic_energy" = some me
      ∧ out "gas_pressure" = some gp
      ∧ eadd (eadd (sdiv gp (gamma - 1)) (emul rho sk)) me = en := by
  have e1 : dset data "spec_kinetic"
      (smul (1 / 2) (eadd (eadd (esq vx) (esq vy)) (esq vz)))
      "magnetic_x_centered" = some bxc := by
    rw [dset_other _ _ _ (by decide), hbx]
  have e2 : dset data "spec_kinetic"
      (smul (1 / 2) (eadd (eadd (esq vx) (esq vy)) (esq vz)))
      "magnetic_y_centered" = some byc := by
    rw [dset_other _ _ _ (by decide), hby]
  have e3 : dset data "spec_kinetic"
      (smul (1 / 2) (eadd (eadd (esq vx) (esq vy)) (esq vz)))
      "magnetic_z_centered" = some bzc := by
    rw [dset_other _ _ _ (by decide), hbz]
  have e4 : dset (dset data "spec_kinetic"
      (smul (1 / 2) (eadd (eadd (esq vx) (esq vy)) (esq vz))))
      "magnetic_energy" (smul (1 / 2) (eadd (eadd (esq bxc) (esq byc)) (esq bzc)))
      "energy" = some en := by
    rw [dset_other _ _ _ (by decide), dset_other _ _ _ (by decide), hen]
  have e5 : dset (dset data "spec_kinetic"
      (smul (1 / 2) (eadd (eadd (esq vx) (esq vy)) (esq vz))))
      "magnetic_energy" (smul (1 / 2) (eadd (eadd (esq bxc) (esq byc)) (esq bzc)))
      "density" = some rho := by
    rw [dset_other _ _ _ (by decide), dset_other _ _ _ (by decide), hrho]
  have e6 : dset (dset data "spec_kinetic"
      (smul (1 / 2) (eadd (eadd (esq vx) (esq vy)) (esq vz))))
      "magnetic_energy" (smul (1 / 2) (eadd (eadd (esq bxc) (esq byc)) (esq bzc)))
      "spec_kinetic"
      = some (smul (1 / 2) (eadd (eadd (esq vx) (esq vy)) (esq vz))) := by
    rw [dset_other _ _ _ (by decide), dset_same]
  have e7 : dset (dset data "spec_kinetic"
      (smul (1 / 2) (eadd (eadd (esq vx) (esq vy)) (esq vz))))
      "magnetic_energy" (smul (1 / 2) (eadd (eadd (esq bxc) (esq byc)) (esq bzc)))
      "magnetic_energy"
      = some (smul (1 / 2) (eadd (eadd (esq bxc) (esq byc)) (esq bzc))) :=
    dset_same _ _ _
  refine ⟨dset (dset (dset (dset data "spec_kinetic"
      (smul (1 / 2) (eadd (eadd (esq vx) (esq vy)) (esq vz))))
      "magnetic_energy" (smul (1 / 2) (eadd (eadd (esq bxc) (esq byc)) (esq bzc))))
      "gas_pressure" (smul (gamma - 1) (esub (esub en (emul rho
        (smul (1 / 2) (eadd (eadd (esq vx) (esq vy)) (esq vz)))))
        (smul (1 / 2) (eadd (eadd (esq bxc) (esq byc)) (esq bzc)))))
      ) "total_pressure" (eadd
        (smul (gamma - 1) (esub (esub en (emul rho
          (smul (1 / 2) (eadd (eadd (esq vx) (esq vy)) (esq vz)))))
          (smul (1 / 2) (eadd (eadd (esq bxc) (esq byc)) (esq bzc)))))
        (smul (1 / 2) (eadd (eadd (esq bxc) (esq byc)) (esq bzc)))),
    smul (1 / 2) (eadd (eadd (esq vx) (esq vy)) (esq vz)),
    smul (1 / 2) (eadd (eadd (esq bxc) (esq byc)) (esq bzc)),
    smul (gamma - 1) (esub (esub en (emul rho
      (smul (1 / 2) (eadd (eadd (esq vx) (esq vy)) (esq vz)))))
      (smul (1 / 2) (eadd (eadd (esq bxc) (esq byc)) (esq bzc)))),
    ?_, ?_, ?_, ?_, ?_⟩
  · simp only [compute_derived_quantities, hvx, hvy, hvz,
      dq_after_spec_kinetic, e1, e2, e3, dq_after_magnetic_energy,
      e4, e5, e6, e7, dq_after_gas_pressure, dset_same,
      dset_other _ _ _ (show ("magnetic_energy" : String) ≠ "gas_pressure"
        by decide), e7]
  · rw [dset_other _ _ _ (by decide), dset_other _ _ _ (by decide),
      dset_other _ _ _ (by decide), dset_same]
  · rw [dset_other _ _ _ (by decide), dset_other _ _ _ (by decide), dset_same]
  · rw [dset_other _ _ _ (by decide), dset_same]
  · have hne : gamma - 1 ≠ 0 := sub_ne_zero.mpr (ne_of_gt hgamma)
    have t1 : shape3 (esq vx) = shape3 en := by rw [shape3_esq]; exact svx
    have t2 : shape3 (esq vy) = shape3 en := by rw [shape3_esq]; exact svy
    have t3 : shape3 (esq vz) = shape3 en := by rw [shape3_esq]; exact svz
    have t4 : shape3 (eadd (esq vx) (esq vy)) = shape3 en := by
      rw [shape3_eadd _ _ (t1.trans t2.symm)]; exact t1
    have t5 : shape3 (eadd (eadd (esq vx) (esq vy)) (esq vz)) = shape3 en := by
      rw [shape3_eadd _ _ (t4.trans t3.symm)]; exact t4
    have sSK : shape3 (smul (1 / 2) (eadd (eadd (esq vx) (esq vy)) (esq vz)))
        = shape3 en := by rw [shape3_smul]; exact t5
    have u1 : shape3 (esq bxc) = shape3 en := by rw [shape3_esq]; exact sbx
    have u2 : shape3 (esq byc) = shape3 en := by rw [shape3_esq]; exact sby
    have u3 : shape3 (esq bzc) = shape3 en := by rw [shape3_esq]; exact sbz
    have u4 : shape3 (eadd (esq bxc) (esq byc)) = shape3 en := by
      rw [shape3_eadd _ _ (u1.trans u2.symm)]; exact u1
    have u5 : shape3 (eadd (eadd (esq bxc) (esq byc)) (esq bzc)) = shape3 en := by
      rw [shape3_eadd _ _ (u4.trans u3.symm)]; exact u4
    have sME : shape3 (smul (1 / 2) (eadd (eadd (esq bxc) (esq byc)) (esq bzc)))
        = shape3 en := by rw [shape3_smul]; exact u5
    have sK : shape3 (emul rho
        (smul (1 / 2) (eadd (eadd (esq vx) (esq vy)) (esq vz)))) = shape3 en := by
      rw [shape3_emul _ _ (srho.trans sSK.symm)]; exact srho
    have sgp1 : shape3 (esub en (emul rho
        (smul (1 / 2) (eadd (eadd (esq vx) (esq vy)) (esq vz))))) = shape3 en := by
      rw [shape3_esub _ _ sK.symm]
    have sgp2 : shape3 (esub (esub en (emul rho
        (smul (1 / 2) (eadd (eadd (esq vx) (esq vy)) (esq vz)))))
        (smul (1 / 2) (eadd (eadd (esq bxc) (esq byc)) (esq bzc)))) = shape3 en := by
      rw [shape3_esub _ _ (sgp1.trans sME.symm)]; exact sgp1
    have sGP : shape3 (smul (gamma - 1) (esub (esub en (emul rho
        (smul (1 / 2) (eadd (eadd (esq vx) (esq vy)) (esq vz)))))
        (smul (1 / 2) (eadd (eadd (esq bxc) (esq byc)) (esq bzc)))))
        = shape3 en := by rw [shape3_smul]; exact sgp2
    have sDIV : shape3 (sdiv (smul (gamma - 1) (esub (esub en (emul rho
        (smul (1 / 2) (eadd (eadd (esq vx) (esq vy)) (esq vz)))))
        (smul (1 / 2) (eadd (eadd (esq bxc) (esq byc)) (esq bzc)))))
        (gamma - 1)) = shape3 en := by rw [shape3_sdiv]; exact sGP
    have sL1 : shape3 (eadd (sdiv (smul (gamma - 1) (esub (esub en (emul rho
        (smul (1 / 2) (eadd (eadd (esq vx) (esq vy)) (esq vz)))))
        (smul (1 / 2) (eadd (eadd (esq bxc) (esq byc)) (esq bzc)))))
        (gamma - 1)) (emul rho
        (smul (1 / 2) (eadd (eadd (esq vx) (esq vy)) (esq vz)))))
        = shape3 en := by
      rw [shape3_eadd _ _ (sDIV.trans sK.symm)]; exact sDIV
    have sLHS : shape3 (eadd (eadd (sdiv (smul (gamma - 1) (esub (esub en
        (emul rho (smul (1 / 2) (eadd (eadd (esq vx) (esq vy)) (esq vz)))))
        (smul (1 / 2) (eadd (eadd (esq bxc) (esq byc)) (esq bzc)))))
        (gamma - 1)) (emul rho
        (smul (1 / 2) (eadd (eadd (esq vx) (esq vy)) (esq vz)))))
        (smul (1 / 2) (eadd (eadd (esq bxc) (esq byc)) (esq bzc))))
        = shape3 en := by
      rw [shape3_eadd _ _ (sL1.trans sME.symm)]; exact sL1
    apply ext3 sLHS
    intro i j k
    cases hE : g3 en i j k with
    | none =>
      have hiso := g3_isSome_of_shape3_eq sLHS i j k
      rw [hE] at hiso
      simp only [Option.isSome_none] at hiso
      refine Option.not_isSome_iff_eq_none.mp ?_
      rw [hiso]
      exact Bool.false_ne_true
    | some e =>
      have gv : ∀ X : Arr3 ℚ, shape3 X = shape3 en → ∃ x, g3 X i j k = some x := by
        intro X hX
        have hs := g3_isSome_of_shape3_eq hX i j k
        rw [hE] at hs
        simp only [Option.isSome_some] at hs
        exact Option.isSome_iff_exists.mp hs
      obtain ⟨r, hr⟩ := gv rho srho
      obtain ⟨a1, ha1⟩ := gv vx svx
      obtain ⟨a2, ha2⟩ := gv vy svy
      obtain ⟨a3, ha3⟩ := gv vz svz
      obtain ⟨b1, hb1⟩ := gv bxc sbx
      obtain ⟨b2, hb2⟩ := gv byc sby
      obtain ⟨b3, hb3⟩ := gv bzc sbz
      simp only [g3_eadd, g3_esub, g3_emul, g3_smul, g3_esq, g3_sdiv,
        hE, hr, ha1, ha2, ha3, hb1, hb2, hb3,
        Option.some_bind, Option.map_some', Option.some.injEq]
      rw [mul_div_cancel_left₀ _ hne]
      ring

/-- Witness for C5 on a concrete uniform snapshot with γ = 2. -/
theorem claim5_witness :
    dAll "energy" = some arr1 ∧ (1 : ℚ) < 2
    ∧ ∃ out sk me gp, compute_derived_quantities dAll 2 = some out
      ∧ out "spec_kinetic" = some sk
      ∧ out "magnetic_energy" = some me
      ∧ out "gas_pressure" = some gp
      ∧ eadd (eadd (sdiv gp ((2 : ℚ) - 1)) (emul arr1 sk)) me = arr1 :=
  ⟨rfl, by norm_num,
    claim5_gas_pressure_invertible dAll 2 arr1 arr1 arr1 arr1 arr1 arr1 arr1
      arr1 rfl rfl rfl rfl rfl rfl rfl rfl (by norm_num)
      rfl rfl rfl rfl rfl rfl rfl⟩

end CaddySchneider
